import Mathlib

/-!
Verification development for the badge worker (src/worker.ts): a shallow
embedding of its pure helpers (formatNumber, generateBadge, getValues,
getTomorrowDate, the request body construction) and of the control flow of
the fetch handler, together with theorems about the aggregation, the number
formatting, the badge comment escaping and the orchestration.

Machine numbers are embedded as Nat and Int; the two floating point
divisions inside formatNumber are embedded by an exact model of IEEE 754
binary64 rounding (round to nearest, ties to even) carried out in integer
arithmetic, and the NaN value produced by parseInt on non numeric input is
embedded as the none case of an option type.
-/

/-- Characters of the JavaScript StrWhiteSpace production (shared by parseInt
and String.prototype.trim): tab, LF, VT, FF, CR, space, NBSP, Ogham space,
the en quad to hair space block, LS, PS, narrow NBSP, medium math space,
ideographic space and ZWNBSP. -/
def isJSWhitespace (c : Char) : Bool :=
  c.toNat == 9 || c.toNat == 10 || c.toNat == 11 || c.toNat == 12 ||
  c.toNat == 13 || c.toNat == 32 || c.toNat == 160 || c.toNat == 0x1680 ||
  (0x2000 ≤ c.toNat && c.toNat ≤ 0x200A) || c.toNat == 0x2028 ||
  c.toNat == 0x2029 || c.toNat == 0x202F || c.toNat == 0x205F ||
  c.toNat == 0x3000 || c.toNat == 0xFEFF

/-- Model of String.prototype.trim: strip leading and trailing whitespace. -/
def jsTrim (s : String) : String :=
  String.mk (((s.data.dropWhile isJSWhitespace).reverse.dropWhile isJSWhitespace).reverse)

/-- Model of String.prototype.toLowerCase. The worker only ever lower-cases
URL query data; the simple case mappings outside ASCII are not modelled. -/
def jsToLowerCase (s : String) : String :=
  String.mk (s.data.map Char.toLower)

/-- Decimal digit value of a character, none for a non digit. -/
def decDigit? (c : Char) : Option ℕ :=
  if c.isDigit then some (c.toNat - 48) else none

/-- Hexadecimal digit value of a character, none for a non digit. -/
def hexDigit? (c : Char) : Option ℕ :=
  if c.isDigit then some (c.toNat - 48)
  else if 'a' ≤ c && c ≤ 'f' then some (c.toNat - 87)
  else if 'A' ≤ c && c ≤ 'F' then some (c.toNat - 55)
  else none

/-- Accumulate the value of the longest digit run at the front of the list. -/
def parseDigitsAux (f : Char → Option ℕ) (b : ℕ) : ℕ → List Char → ℕ
  | acc, [] => acc
  | acc, c :: t =>
    match f c with
    | none => acc
    | some d => parseDigitsAux f b (acc * b + d) t

/-- Value of the longest digit prefix; none when the first character is not a
digit, which is the NaN case of parseInt. -/
def parseDigits (f : Char → Option ℕ) (b : ℕ) : List Char → Option ℕ
  | [] => none
  | c :: t => (f c).map (fun d => parseDigitsAux f b d t)

/-- Radix selection of parseInt with no radix argument: a 0x or 0X prefix
selects hexadecimal, anything else is decimal. -/
def parseIntHexOrDec : List Char → Option ℕ
  | '0' :: c :: t =>
    if c = 'x' ∨ c = 'X' then parseDigits hexDigit? 16 t
    else parseDigits decDigit? 10 ('0' :: c :: t)
  | l => parseDigits decDigit? 10 l

/-- Model of the JavaScript parseInt builtin exactly as the worker calls it
(no radix argument): skip leading whitespace, read an optional sign, detect a
hexadecimal prefix, convert the longest digit prefix; none models the NaN
result produced when no digit is found. -/
def parseIntJS (s : String) : Option ℤ :=
  match s.data.dropWhile isJSWhitespace with
  | '-' :: t => (parseIntHexOrDec t).map (fun n => -(n : ℤ))
  | '+' :: t => (parseIntHexOrDec t).map (fun n => (n : ℤ))
  | t => (parseIntHexOrDec t).map (fun n => (n : ℤ))

/-- A JavaScript number as produced by the counts aggregation: an integer, or
NaN modelled as none. -/
abbrev JSNum := Option ℤ

/-- JavaScript addition on such numbers: NaN propagates. -/
def jsAdd (a b : JSNum) : JSNum :=
  match a, b with
  | some x, some y => some (x + y)
  | _, _ => none

/-- Array.prototype.reduce with the addition callback and initial value 0, as
used by the worker to total the metric values. -/
def jsSum (l : List JSNum) : JSNum := l.foldl jsAdd (some 0)

/-- A dimension or metric value object of a report row; the value property
may be absent in the raw JSON, hence an option. -/
structure GAValue where
  value : Option String
deriving DecidableEq

/-- A row of the analytics report. -/
structure ReportRow where
  dimensionValues : List GAValue
  metricValues : List GAValue
deriving DecidableEq

/-- The part of a GoogleAnalyticsReport.Report the worker reads: the rows
array, which may be absent (the code supplies an empty default with nullish
coalescing). The header and metadata fields are never consulted. -/
structure Report where
  rows : Option (List ReportRow)
deriving DecidableEq

/-- The two keys of a typed ReportRow, the possible dimensionKey arguments of
getValues. -/
inductive RowKey
  | dimensionValues
  | metricValues
deriving DecidableEq

/-- Object.entries on a typed ReportRow. -/
def rowEntries (r : ReportRow) : List (RowKey × List GAValue) :=
  [(RowKey.dimensionValues, r.dimensionValues), (RowKey.metricValues, r.metricValues)]

/-- Embedding of getValues: flatten Object.entries of every row, keep the
entries matching the requested key, flatten their arrays and project the
value property of every element. -/
def getValues (analyticsResponse : Report) (dimensionKey : RowKey) : List (Option String) :=
  ((((analyticsResponse.rows.getD []).flatMap rowEntries).filter
      (fun e => e.1 == dimensionKey)).flatMap (fun e => e.2)).map (fun v => v.value)

/-- The counts aggregation of the fetch handler: parseInt over every metric
value (a missing value defaults to the string 0), then reduce with addition
from 0. -/
def reportCounts (data : Report) : JSNum :=
  jsSum ((getValues data RowKey.metricValues).map (fun value => parseIntJS (value.getD "0")))

/-- The dimensionValues list of the fetch handler. -/
def reportDimensionValues (data : Report) : List (Option String) :=
  getValues data RowKey.dimensionValues

/-- Fuel driven floor of the base two logarithm, so that it reduces inside
the kernel; the fuel decreases once per halving. -/
def floorLog2Fuel : ℕ → ℕ → ℕ
  | 0, _ => 0
  | fuel + 1, n => if n < 2 then 0 else floorLog2Fuel fuel (n / 2) + 1

/-- Floor of the base two logarithm (0 at 0). -/
def floorLog2 (n : ℕ) : ℕ := floorLog2Fuel n n

/-- Round half to even of the fraction n / d for positive d: the rounding
used by IEEE 754 binary64 arithmetic. -/
def rheFrac (n d : ℕ) : ℕ :=
  let q := n / d
  let r := n % d
  if 2 * r < d then q
  else if d < 2 * r then q + 1
  else if q % 2 = 0 then q else q + 1

/-- A nonnegative IEEE 754 binary64 value, as a mantissa times a power of
two. Only the finite values arising inside formatNumber are represented; NaN
input is handled separately by formatNumberJS, and the overflow threshold is
far beyond every value considered here. -/
structure Float64 where
  mantissa : ℕ
  exponent : ℤ
deriving DecidableEq

/-- Exact rational value of the binary64 number. -/
def f64val (x : Float64) : ℚ := (x.mantissa : ℚ) * (2 : ℚ) ^ x.exponent

/-- IEEE 754 binary64 division of two naturals with quotient at least 1: the
exact quotient is rounded to 53 significant bits, to nearest, ties to even.
The worker divides absNum by 1000 or 1000000 only when absNum is at least the
divisor, so the quotient is always at least 1 here. -/
def divNatF64 (a d : ℕ) : Float64 :=
  let e := floorLog2 (a / d)
  if e ≤ 52 then ⟨rheFrac (a * 2 ^ (52 - e)) d, (e : ℤ) - 52⟩
  else ⟨rheFrac a (d * 2 ^ (e - 52)), (e : ℤ) - 52⟩

/-- The wholeness test formattedNum modulo 1 of the source, on a binary64
value: true exactly when the value is an integer. -/
def f64isWhole (x : Float64) : Bool :=
  if x.exponent < 0 then x.mantissa % 2 ^ (-x.exponent).toNat == 0 else true

/-- Numerator and denominator of x times ten to the f, exactly. -/
def f64scaled (x : Float64) (f : ℕ) : ℕ × ℕ :=
  if x.exponent < 0 then (x.mantissa * 10 ^ f, 2 ^ (-x.exponent).toNat)
  else (x.mantissa * 2 ^ x.exponent.toNat * 10 ^ f, 1)

/-- Left pad with zero digits up to width w. -/
def zeroPadLeft (w : ℕ) (s : String) : String :=
  if s.length < w then String.mk (List.replicate (w - s.length) '0') ++ s else s

/-- Model of Number.prototype.toFixed on a nonnegative binary64 value below
ten to the 21 (beyond which toFixed falls back to exponential notation, a
region no theorem below touches): round the value times ten to the f to the
nearest integer, ties away from zero, and print with f digits after the
point. -/
def f64toFixed (x : Float64) (f : ℕ) : String :=
  let nd := f64scaled x f
  let t := (2 * nd.1 + nd.2) / (2 * nd.2)
  if f = 0 then Nat.repr t
  else Nat.repr (t / 10 ^ f) ++ "." ++ zeroPadLeft f (Nat.repr (t % 10 ^ f))

/-- Embedding of formatNumber. Math.trunc of the nonnegative integer absNum
is absNum itself; the divisions are binary64 divisions; the toFixed digit
count is 0 exactly when the binary64 quotient is whole. Faithful for integer
inputs of magnitude below 2 to the 53 (larger inputs are not exact doubles in
the source language); every concrete evaluation below stays inside that
range or is an exact double. -/
def formatNumber (num : ℤ) : String :=
  let absNum := num.natAbs
  if absNum < 1000 then
    (if num < 0 then "-" else "") ++ Nat.repr absNum
  else if absNum < 1000000 then
    let formattedNum := divNatF64 absNum 1000
    (if num < 0 then "-" else "") ++
      f64toFixed formattedNum (if f64isWhole formattedNum then 0 else 1) ++ "K"
  else
    let formattedNum := divNatF64 absNum 1000000
    (if num < 0 then "-" else "") ++
      f64toFixed formattedNum (if f64isWhole formattedNum then 0 else 1) ++ "M"

/-- formatNumber applied to the aggregated count, which may be NaN: with NaN
every branch comparison of the source is false, NaN divided by 1000000 is
NaN, the wholeness test is false, and toFixed prints NaN, so the result is
the string NaNM. -/
def formatNumberJS : JSNum → String
  | some n => formatNumber n
  | none => "NaNM"

/-- Length of a string in UTF-16 code units, the JavaScript length
property. -/
def utf16Length (s : String) : ℕ :=
  s.data.foldl (fun acc c => acc + (if c.toNat < 0x10000 then 1 else 2)) 0

/-- Embedding of getTextWidth: approximate character width 8 plus padding
10. -/
def getTextWidth (text : String) : ℕ := utf16Length text * 8 + 10

/-- Left to right global replacement of the comment terminator sequence by
the four character literal of the source (a mangled em dash, three
characters, then the greater sign), performed by the regex replace inside
generateBadge. -/
def replArrow : List Char → List Char
  | '-' :: '-' :: '>' :: t => 'â' :: '€' :: '”' :: '>' :: replArrow t
  | c :: t => c :: replArrow t
  | [] => []

/-- The replace call of generateBadge on one metadata item. -/
def jsReplaceArrow (s : String) : String := String.mk (replArrow s.data)

/-- One metadata comment of the badge. -/
def metadataComment (item : String) : String :=
  "<!-- METADATA: " ++ jsReplaceArrow item ++ " -->"

/-- Array.prototype.join with a newline separator. -/
def joinLines : List String → String
  | [] => ""
  | [s] => s
  | s :: rest => s ++ "\n" ++ joinLines rest

/-- Occurrence test for the three character comment terminator sequence. -/
def containsArrow : List Char → Bool
  | '-' :: '-' :: '>' :: _ => true
  | _ :: t => containsArrow t
  | [] => false

/-- Lexical scan of the comments of a document: after every comment opener,
the first double dash must be part of the three character terminator, and the
terminator must be reached. By the Comment production of the XML
recommendation this is a necessary condition for well-formedness whenever the
comment opener only occurs where a real comment starts, which holds for the
badge template. -/
def commentScan : Bool → List Char → Bool
  | false, '<' :: '!' :: '-' :: '-' :: t => commentScan true t
  | false, _ :: t => commentScan false t
  | false, [] => true
  | true, '-' :: '-' :: '>' :: t => commentScan false t
  | true, '-' :: '-' :: _ :: _ => false
  | true, ['-', '-'] => false
  | true, _ :: t => commentScan true t
  | true, [] => false

/-- The comment lexing check on a whole string. -/
def xmlCommentsWellFormed (s : String) : Bool := commentScan false s.data

/-- Embedding of generateBadge for a string value argument (the worker always
passes the formatNumber string, and toString on a string is the identity).
The template is transcribed from the source with its exact whitespace; the
final trim removes nothing because the template starts and ends with nonblank
characters, but it is applied all the same. The interpolated widths are even
naturals (8 times a length plus 10), so the halvings print as integers
exactly as in the source. -/
def generateBadge (label : String) (value : String) (metadata : List String) : String :=
  let valueText := value
  let labelWidth := getTextWidth label
  let valueWidth := getTextWidth valueText
  let totalWidth := labelWidth + valueWidth
  let metadataComments := joinLines (metadata.map metadataComment)
  jsTrim (
    "<?xml version=\"1.0\" encoding=\"UTF-8\"?>\n" ++
    "    <svg xmlns=\"http://www.w3.org/2000/svg\" width=\"" ++ Nat.repr totalWidth ++
      "\" height=\"20\">\n" ++
    "\t  " ++ metadataComments ++ "\n" ++
    "      <linearGradient id=\"b\" x2=\"0\" y2=\"100%\">\n" ++
    "        <stop offset=\"0\" stop-color=\"#bbb\" stop-opacity=\".1\"/>\n" ++
    "        <stop offset=\"1\" stop-opacity=\".1\"/>\n" ++
    "      </linearGradient>\n" ++
    "      <mask id=\"a\">\n" ++
    "        <rect width=\"" ++ Nat.repr totalWidth ++ "\" height=\"20\" rx=\"3\" fill=\"#fff\"/>\n" ++
    "      </mask>\n" ++
    "      <g mask=\"url(#a)\">\n" ++
    "        <rect width=\"" ++ Nat.repr labelWidth ++ "\" height=\"20\" fill=\"#555\"/>\n" ++
    "        <rect x=\"" ++ Nat.repr labelWidth ++ "\" width=\"" ++ Nat.repr valueWidth ++
      "\" height=\"20\" fill=\"#4c1\"/>\n" ++
    "        <rect width=\"" ++ Nat.repr totalWidth ++ "\" height=\"20\" fill=\"url(#b)\"/>\n" ++
    "      </g>\n" ++
    "      <g fill=\"#fff\" text-anchor=\"middle\" font-family=\"DejaVu Sans,Verdana,Geneva,sans-serif\" font-size=\"13\">\n" ++
    "        <text x=\"" ++ Nat.repr (labelWidth / 2) ++
      "\" y=\"15\" fill=\"#010101\" fill-opacity=\".3\">" ++ label ++ "</text>\n" ++
    "        <text x=\"" ++ Nat.repr (labelWidth / 2) ++ "\" y=\"14\">" ++ label ++ "</text>\n" ++
    "        <text x=\"" ++ Nat.repr (labelWidth + valueWidth / 2) ++
      "\" y=\"15\" fill=\"#010101\" fill-opacity=\".3\">" ++ valueText ++ "</text>\n" ++
    "        <text x=\"" ++ Nat.repr (labelWidth + valueWidth / 2) ++ "\" y=\"14\">" ++
      valueText ++ "</text>\n" ++
    "      </g>\n" ++
    "    </svg>")

/-- A calendar date, standing for the UTC date of the worker clock. -/
structure CivilDate where
  year : ℕ
  month : ℕ
  day : ℕ
deriving DecidableEq

/-- Gregorian leap year rule. -/
def isLeapYear (y : ℕ) : Bool :=
  (y % 4 == 0 && y % 100 != 0) || y % 400 == 0

/-- Number of days of a month. -/
def daysInMonth (y m : ℕ) : ℕ :=
  if m = 2 then (if isLeapYear y then 29 else 28)
  else if m = 4 ∨ m = 6 ∨ m = 9 ∨ m = 11 then 30
  else 31

/-- The next calendar day, with month and year rollover as performed by the
setDate call of the source. -/
def nextDay (d : CivilDate) : CivilDate :=
  if d.day < daysInMonth d.year d.month then ⟨d.year, d.month, d.day + 1⟩
  else if d.month < 12 then ⟨d.year, d.month + 1, 1⟩
  else ⟨d.year + 1, 1, 1⟩

/-- Two digit zero padded decimal rendering. -/
def pad2 (n : ℕ) : String :=
  if n < 10 then "0" ++ Nat.repr n else Nat.repr n

/-- Four digit zero padded decimal rendering. -/
def pad4 (n : ℕ) : String :=
  if n < 10 then "000" ++ Nat.repr n
  else if n < 100 then "00" ++ Nat.repr n
  else if n < 1000 then "0" ++ Nat.repr n
  else Nat.repr n

/-- The date part of toISOString. -/
def ymdString (d : CivilDate) : String :=
  pad4 d.year ++ "-" ++ pad2 d.month ++ "-" ++ pad2 d.day

/-- Embedding of getTomorrowDate: add one day to the current UTC date (the
worker runtime clock is UTC, so setDate and toISOString agree on the calendar
day) and keep the date part of the ISO string. -/
def getTomorrowDate (today : CivilDate) : String := ymdString (nextDay today)

/-- The report query the worker posts to the analytics endpoint, with its
constant field names spelled out. -/
structure RequestBody where
  startDate : String
  endDate : String
  dimensionName : String
  filterFieldName : String
  matchType : String
  filterValue : String
  metricName : String
deriving DecidableEq

/-- Embedding of the requestBody construction of the fetch handler. -/
def buildRequestBody (page_path : String) (today : CivilDate) : RequestBody :=
  { startDate := "2024-01-01"
    endDate := getTomorrowDate today
    dimensionName := "pagePath"
    filterFieldName := "pagePath"
    matchType := "CONTAINS"
    filterValue := jsTrim (jsToLowerCase page_path)
    metricName := "screenPageViews" }

/-- Hexadecimal digit character, lower case. -/
def hexDigitChar (n : ℕ) : Char :=
  if n < 10 then Char.ofNat (48 + n) else Char.ofNat (87 + n)

/-- JSON string escaping of one character, as performed by JSON.stringify. -/
def jsonEscapeChar (c : Char) : List Char :=
  if c = '\"' then ['\\', '\"']
  else if c = '\\' then ['\\', '\\']
  else if c.toNat = 8 then ['\\', 'b']
  else if c.toNat = 9 then ['\\', 't']
  else if c.toNat = 10 then ['\\', 'n']
  else if c.toNat = 12 then ['\\', 'f']
  else if c.toNat = 13 then ['\\', 'r']
  else if c.toNat < 32 then
    ['\\', 'u', '0', '0', hexDigitChar (c.toNat / 16), hexDigitChar (c.toNat % 16)]
  else [c]

/-- JSON string quoting as performed by JSON.stringify. -/
def jsonQuote (s : String) : String :=
  "\"" ++ String.mk (s.data.flatMap jsonEscapeChar) ++ "\""

/-- Body of the 500 response for a non success backend response:
JSON.stringify of an object holding the backend error text, indented by four
spaces. -/
def jsonErrorBodyIndent4 (t : String) : String :=
  "\x7b\n    \"error\": " ++ jsonQuote t ++ "\n\x7d"

/-- Body of the catch branch 500 response: compact JSON.stringify of the
error message (the fallback text when the message is falsy, that is empty)
and the current ISO timestamp. -/
def jsonCatchBody (msg nowIso : String) : String :=
  "\x7b\"error\":" ++ jsonQuote (if msg = "" then "Internal server error" else msg) ++
    ",\"timestamp\":" ++ jsonQuote nowIso ++ "\x7d"

/-- An HTTP response: status, body and headers. -/
structure HttpResponse where
  status : ℕ
  body : String
  headers : List (String × String)
deriving DecidableEq

/-- Result of the token acquisition steps (credential decoding, parsing and
the oauth call): a thrown fault, or the token value which may be undefined. -/
inductive AuthResult
  | throws (msg : String)
  | token (t : Option String)

/-- Result of the backend call: a thrown network fault, a non success
response carrying its error text, or a success response whose JSON parse may
itself throw. -/
inductive BackendResult
  | throws (msg : String)
  | httpError (errorText : String)
  | ok (parsed : Except String Report)

/-- One inbound request together with the behaviour of every external
collaborator the handler consults, in the order the source consults them. -/
structure FetchInput where
  cached : Option HttpResponse
  auth : AuthResult
  method : String
  queryParams : List (String × String)
  today : CivilDate
  backend : BackendResult
  nowIso : String

/-- Observable outcome of one request: the response, whether the backend was
called, the query sent to it, and the response handed to cache.put (inside
waitUntil) if any. -/
structure FetchOutcome where
  response : HttpResponse
  backendCalled : Bool
  backendQuery : Option RequestBody
  cachePut : Option HttpResponse

/-- Image cache lifetime of the source, 45 minutes. -/
def IMAGE_CACHE_SECONDS : ℕ := 45 * 60

/-- Upstream call cache lifetime of the source, 45 minutes. -/
def GOOGLE_CALL_CACHE_TTL_SECONDS : ℕ := 45 * 60

/-- The response built by the catch branch. -/
def catchResponse (msg nowIso : String) : HttpResponse :=
  ⟨500, jsonCatchBody msg nowIso, [("Content-Type", "application/json")]⟩

/-- A 405 response with a plain text body (the Response constructor adds the
plain text content type for a string body). -/
def textResponse405 (body : String) : HttpResponse :=
  ⟨405, body, [("Content-Type", "text/plain;charset=UTF-8")]⟩

/-- The 500 response surfacing a non success backend response. -/
def upstreamErrorResponse (t : String) : HttpResponse :=
  ⟨500, jsonErrorBodyIndent4 t, [("Content-Type", "application/json")]⟩

/-- The successful render: the badge over the aggregated report, with the
constant label readers, the svg content type, the image cache control header
and the permissive CORS header. -/
def successResponse (data : Report) : HttpResponse :=
  ⟨200,
   generateBadge "readers" (formatNumberJS (reportCounts data))
     ((reportDimensionValues data).map (fun v => v.getD "")),
   [("Content-Type", "image/svg+xml"),
    ("Cache-Control", "public, max-age=" ++ Nat.repr IMAGE_CACHE_SECONDS),
    ("Access-Control-Allow-Origin", "*")]⟩

/-- V8 message of the TypeError thrown when a dimension value object has no
value property: generateBadge then calls replace on undefined. The model
routes this throw to the catch branch before any response is built, which is
observably what the source does. -/
def jsUndefinedReplaceMessage : String :=
  "Cannot read properties of undefined (reading \u0027replace\u0027)"

/-- The page_path lookup of the fetch handler: the first query parameter
whose key lower-cased and trimmed equals page_path. -/
def findPagePath (params : List (String × String)) : Option String :=
  (params.find? (fun kv => jsTrim (jsToLowerCase kv.1) == "page_path")).map Prod.snd

/-- Embedding of the fetch handler control flow over one request: cache
lookup, token acquisition, method check, page_path check, backend call,
aggregation, render, cache fill; any thrown fault falls to the catch branch.
The order of the steps mirrors the source exactly; in particular token
acquisition precedes both validation checks. -/
def workerFetch (input : FetchInput) : FetchOutcome :=
  match input.cached with
  | some response => ⟨response, false, none, none⟩
  | none =>
    match input.auth with
    | AuthResult.throws msg => ⟨catchResponse msg input.nowIso, false, none, none⟩
    | AuthResult.token none =>
        ⟨catchResponse "generating Google auth token failed" input.nowIso, false, none, none⟩
    | AuthResult.token (some _) =>
      if input.method ≠ "GET" then
        ⟨textResponse405 "Method not allowed", false, none, none⟩
      else
        match findPagePath input.queryParams with
        | none => ⟨textResponse405 "page_path not available", false, none, none⟩
        | some page_path =>
          if page_path = "" then
            ⟨textResponse405 "page_path not available", false, none, none⟩
          else
            let requestBody := buildRequestBody page_path input.today
            match input.backend with
            | BackendResult.throws msg =>
                ⟨catchResponse msg input.nowIso, true, some requestBody, none⟩
            | BackendResult.httpError t =>
                ⟨upstreamErrorResponse t, true, some requestBody, none⟩
            | BackendResult.ok (Except.error msg) =>
                ⟨catchResponse msg input.nowIso, true, some requestBody, none⟩
            | BackendResult.ok (Except.ok data) =>
              if (reportDimensionValues data).all Option.isSome then
                ⟨successResponse data, true, some requestBody, some (successResponse data)⟩
              else
                ⟨catchResponse jsUndefinedReplaceMessage input.nowIso, true, some requestBody, none⟩

set_option maxRecDepth 40000

theorem foldl_jsAdd_none (l : List JSNum) : l.foldl jsAdd none = none := by
  induction l with
  | nil => rfl
  | cons x t ih => cases x <;> simpa [jsAdd] using ih

theorem foldl_jsAdd_some (l : List JSNum) (h : ∀ x ∈ l, x ≠ none) (a : ℤ) :
    l.foldl jsAdd (some a) = some (a + (l.filterMap id).sum) := by
  induction l generalizing a with
  | nil => simp
  | cons x t ih =>
    obtain ⟨y, rfl⟩ := Option.ne_none_iff_exists'.mp (h x (List.mem_cons_self x t))
    rw [List.foldl_cons, show jsAdd (some a) (some y) = some (a + y) from rfl,
      ih (fun z hz => h z (List.mem_cons_of_mem _ hz)) (a + y)]
    simp [add_assoc]

theorem foldl_jsAdd_mem_none (l : List JSNum) (h : none ∈ l) (a : ℤ) :
    l.foldl jsAdd (some a) = none := by
  induction l generalizing a with
  | nil => cases h
  | cons x t ih =>
    rcases List.mem_cons.mp h with hx | ht
    · subst hx
      simpa [jsAdd] using foldl_jsAdd_none t
    · cases x with
      | none => simpa [jsAdd] using foldl_jsAdd_none t
      | some y => simpa [jsAdd] using ih ht (a + y)

theorem jsSum_eq_none_iff (l : List JSNum) : jsSum l = none ↔ none ∈ l := by
  constructor
  · intro h
    by_contra hn
    have hall : ∀ x ∈ l, x ≠ none := fun x hx hxe => hn (hxe ▸ hx)
    rw [jsSum, foldl_jsAdd_some l hall 0] at h
    cases h
  · intro h
    exact foldl_jsAdd_mem_none l h 0

theorem jsSum_eq_sum (l : List JSNum) (h : ∀ x ∈ l, x ≠ none) :
    jsSum l = some ((l.filterMap id).sum) := by
  rw [jsSum, foldl_jsAdd_some l h 0, zero_add]

theorem getValues_metricValues (data : Report) :
    getValues data RowKey.metricValues =
      (data.rows.getD []).flatMap (fun r => r.metricValues.map (fun v => v.value)) := by
  rw [getValues]
  induction data.rows.getD [] with
  | nil => rfl
  | cons r t ih =>
    simp only [List.flatMap_cons, List.filter_append, List.flatMap_append, List.map_append, ih]
    congr 1
    simp [rowEntries]

theorem getValues_dimensionValues (data : Report) :
    getValues data RowKey.dimensionValues =
      (data.rows.getD []).flatMap (fun r => r.dimensionValues.map (fun v => v.value)) := by
  rw [getValues]
  induction data.rows.getD [] with
  | nil => rfl
  | cons r t ih =>
    simp only [List.flatMap_cons, List.filter_append, List.flatMap_append, List.map_append, ih]
    congr 1
    simp [rowEntries]

theorem floorLog2Fuel_bounds : ∀ fuel n : ℕ, 1 ≤ n → n ≤ fuel →
    2 ^ floorLog2Fuel fuel n ≤ n ∧ n < 2 ^ (floorLog2Fuel fuel n + 1) := by
  intro fuel
  induction fuel with
  | zero => intro n h1 h2; omega
  | succ fuel ih =>
    intro n h1 h2
    rw [floorLog2Fuel]
    by_cases hn : n < 2
    · rw [if_pos hn]
      constructor
      · simpa using h1
      · simpa using hn
    · rw [if_neg hn]
      have h2' : n / 2 ≤ fuel := by omega
      have h1' : 1 ≤ n / 2 := by omega
      obtain ⟨ha, hb⟩ := ih (n / 2) h1' h2'
      have hb' : n / 2 < 2 ^ floorLog2Fuel fuel (n / 2) * 2 := by
        rw [pow_succ] at hb; exact hb
      constructor
      · rw [pow_succ]
        omega
      · rw [pow_succ, pow_succ]
        omega

theorem floorLog2_bounds (n : ℕ) (h : 1 ≤ n) :
    2 ^ floorLog2 n ≤ n ∧ n < 2 ^ (floorLog2 n + 1) :=
  floorLog2Fuel_bounds n n h le_rfl

theorem rheFrac_dvd (n d : ℕ) (hd : 0 < d) (h : d ∣ n) : rheFrac n d = n / d := by
  have hr : n % d = 0 := Nat.dvd_iff_mod_eq_zero.mp h
  rw [rheFrac]
  simp only [hr, Nat.mul_zero]
  rw [if_pos hd]

theorem abs_sub_div_le_half (v n d : ℕ) (hd : 0 < d)
    (h1 : 2 * n ≤ 2 * v * d + d) (h2 : 2 * v * d ≤ 2 * n + d) :
    |(v : ℚ) - (n : ℚ) / d| ≤ 1 / 2 := by
  have hd' : (0 : ℚ) < d := by exact_mod_cast hd
  have expand : (v : ℚ) - (n : ℚ) / d = ((2 * v * d : ℚ) - 2 * n) / (2 * d) := by
    field_simp
    ring
  have hq1 : ((2 * n : ℕ) : ℚ) ≤ ((2 * v * d + d : ℕ) : ℚ) := Nat.cast_le.mpr h1
  have hq2 : ((2 * v * d : ℕ) : ℚ) ≤ ((2 * n + d : ℕ) : ℚ) := Nat.cast_le.mpr h2
  push_cast at hq1 hq2
  rw [expand, abs_div, abs_of_pos (by positivity : (0 : ℚ) < 2 * d),
    div_le_iff (by positivity : (0 : ℚ) < 2 * d)]
  rw [abs_le]
  constructor <;> nlinarith

theorem rheFrac_close (n d : ℕ) (hd : 0 < d) :
    |(rheFrac n d : ℚ) - (n : ℚ) / d| ≤ 1 / 2 := by
  have hnd := Nat.div_add_mod n d
  have hlt : n % d < d := Nat.mod_lt _ hd
  rw [rheFrac]
  generalize hq : n / d = q at hnd ⊢
  generalize hr : n % d = r at hnd hlt ⊢
  split_ifs with hc1 hc2 hc3
  · exact abs_sub_div_le_half _ n d hd (by nlinarith) (by nlinarith)
  · exact abs_sub_div_le_half _ n d hd (by nlinarith) (by nlinarith)
  · exact abs_sub_div_le_half _ n d hd (by nlinarith) (by nlinarith)
  · exact abs_sub_div_le_half _ n d hd (by nlinarith) (by nlinarith)

theorem natRound_close (N D : ℕ) (hD : 0 < D) :
    |(((2 * N + D) / (2 * D) : ℕ) : ℚ) - (N : ℚ) / D| ≤ 1 / 2 := by
  have ha := Nat.div_add_mod (2 * N + D) (2 * D)
  have hb : (2 * N + D) % (2 * D) < 2 * D := Nat.mod_lt _ (by omega)
  generalize hq : (2 * N + D) / (2 * D) = t at ha ⊢
  generalize hm : (2 * N + D) % (2 * D) = r at ha hb
  exact abs_sub_div_le_half t N D hD (by nlinarith) (by nlinarith)

theorem pow_cast_mul_zpow (e : ℕ) (he : e ≤ 52) :
    ((2 ^ (52 - e) : ℕ) : ℚ) * (2 : ℚ) ^ ((e : ℤ) - 52) = 1 := by
  have : ((2 ^ (52 - e) : ℕ) : ℚ) = (2 : ℚ) ^ (((52 - e : ℕ) : ℤ)) := by
    push_cast
    rw [zpow_natCast]
  rw [this, ← zpow_add₀ (by norm_num : (2 : ℚ) ≠ 0)]
  have : ((52 - e : ℕ) : ℤ) + ((e : ℤ) - 52) = 0 := by omega
  rw [this, zpow_zero]

theorem close_scale (m : ℕ) (q : ℚ) (e : ℕ) (hq2 : (2 : ℚ) ^ (e : ℤ) ≤ q)
    (hm : |(m : ℚ) - q * (2 : ℚ) ^ ((52 : ℤ) - e)| ≤ 1 / 2) :
    |(m : ℚ) * (2 : ℚ) ^ ((e : ℤ) - 52) - q| ≤ q / 2 ^ 53 := by
  have h2pos : (0 : ℚ) < (2 : ℚ) ^ ((e : ℤ) - 52) := zpow_pos (by norm_num) _
  have step := mul_le_mul_of_nonneg_right hm h2pos.le
  rw [← abs_of_pos h2pos, ← abs_mul] at step
  have expand : ((m : ℚ) - q * (2 : ℚ) ^ ((52 : ℤ) - e)) * (2 : ℚ) ^ ((e : ℤ) - 52) =
      (m : ℚ) * (2 : ℚ) ^ ((e : ℤ) - 52) - q := by
    rw [sub_mul, mul_assoc, ← zpow_add₀ (by norm_num : (2 : ℚ) ≠ 0)]
    norm_num
  rw [expand] at step
  refine step.trans ?_
  have e1 : (1 / 2 : ℚ) * |(2 : ℚ) ^ ((e : ℤ) - 52)| = (2 : ℚ) ^ ((e : ℤ) - 53) := by
    rw [abs_of_pos h2pos, show (1 / 2 : ℚ) = (2 : ℚ) ^ (-1 : ℤ) by norm_num,
      ← zpow_add₀ (by norm_num : (2 : ℚ) ≠ 0)]
    congr 1 <;> omega
  rw [e1, le_div_iff (by positivity : (0 : ℚ) < 2 ^ 53)]
  calc (2 : ℚ) ^ ((e : ℤ) - 53) * 2 ^ 53
      = (2 : ℚ) ^ ((e : ℤ) - 53) * (2 : ℚ) ^ (((53 : ℕ)) : ℤ) := by rw [zpow_natCast]
    _ = (2 : ℚ) ^ (e : ℤ) := by
        rw [← zpow_add₀ (by norm_num : (2 : ℚ) ≠ 0)]
        congr 1 <;> omega
    _ ≤ q := hq2

theorem div_cast_le (a d : ℕ) : ((a / d : ℕ) : ℚ) ≤ (a : ℚ) / d := Nat.cast_div_le

theorem div_cast_lt_succ (a d : ℕ) (hd : 0 < d) : (a : ℚ) / d < ((a / d : ℕ) : ℚ) + 1 := by
  have hd' : (0 : ℚ) < d := by exact_mod_cast hd
  rw [div_lt_iff hd']
  have hnat : a < (a / d + 1) * d := by
    have ha := Nat.div_add_mod a d
    have hb := Nat.mod_lt a hd
    generalize a / d = q at *
    generalize a % d = r at *
    nlinarith
  calc (a : ℚ) < (((a / d + 1) * d : ℕ) : ℚ) := by exact_mod_cast hnat
    _ = (((a / d : ℕ) : ℚ) + 1) * d := by push_cast; ring

theorem floorLog2_le_of_quot (a d : ℕ) (hd : 2 ≤ d) (hda : d ≤ a) (ha : a < 2 ^ 53) :
    floorLog2 (a / d) < 52 := by
  have hd0 : 0 < d := by omega
  have hk1 : 1 ≤ a / d := (Nat.one_le_div_iff hd0).mpr hda
  obtain ⟨hlow, _⟩ := floorLog2_bounds (a / d) hk1
  by_contra h
  have h52 : 2 ^ 52 ≤ a / d :=
    le_trans (Nat.pow_le_pow_right (by norm_num) (by omega)) hlow
  have hmul := Nat.div_mul_le_self a d
  have : 2 * 2 ^ 52 ≤ a := by nlinarith
  norm_num at this
  omega

theorem divNatF64_close (a d : ℕ) (hd : 0 < d) (hda : d ≤ a) :
    |f64val (divNatF64 a d) - (a : ℚ) / d| ≤ ((a : ℚ) / d) / 2 ^ 53 := by
  have hd' : (0 : ℚ) < d := by exact_mod_cast hd
  have hk1 : 1 ≤ a / d := (Nat.one_le_div_iff hd).mpr hda
  obtain ⟨hlow, hhigh⟩ := floorLog2_bounds (a / d) hk1
  have hq2 : (2 : ℚ) ^ ((floorLog2 (a / d) : ℤ)) ≤ (a : ℚ) / d := by
    calc (2 : ℚ) ^ ((floorLog2 (a / d) : ℤ)) = ((2 ^ floorLog2 (a / d) : ℕ) : ℚ) := by
          push_cast
          rw [zpow_natCast]
      _ ≤ ((a / d : ℕ) : ℚ) := Nat.cast_le.mpr hlow
      _ ≤ (a : ℚ) / d := Nat.cast_div_le
  simp only [divNatF64]
  by_cases he52 : floorLog2 (a / d) ≤ 52
  · rw [if_pos he52]
    have hm := rheFrac_close (a * 2 ^ (52 - floorLog2 (a / d))) d hd
    have hcast : ((a * 2 ^ (52 - floorLog2 (a / d)) : ℕ) : ℚ) / d =
        ((a : ℚ) / d) * ((2 ^ (52 - floorLog2 (a / d)) : ℕ) : ℚ) := by
      push_cast
      ring
    rw [hcast] at hm
    have hz : ((2 ^ (52 - floorLog2 (a / d)) : ℕ) : ℚ) =
        (2 : ℚ) ^ ((52 : ℤ) - floorLog2 (a / d)) := by
      push_cast
      rw [← zpow_natCast (2 : ℚ) (52 - floorLog2 (a / d))]
      congr 1
      omega
    rw [hz] at hm
    simpa [f64val] using close_scale _ _ (floorLog2 (a / d)) hq2 hm
  · rw [if_neg he52]
    have hDpos : 0 < d * 2 ^ (floorLog2 (a / d) - 52) := by positivity
    have hm := rheFrac_close a (d * 2 ^ (floorLog2 (a / d) - 52)) hDpos
    have hcast : (a : ℚ) / ((d * 2 ^ (floorLog2 (a / d) - 52) : ℕ) : ℚ) =
        ((a : ℚ) / d) * (2 : ℚ) ^ ((52 : ℤ) - floorLog2 (a / d)) := by
      have hzz : (2 : ℚ) ^ ((52 : ℤ) - floorLog2 (a / d)) =
          (((2 ^ (floorLog2 (a / d) - 52) : ℕ) : ℚ))⁻¹ := by
        push_cast
        rw [← zpow_natCast (2 : ℚ) (floorLog2 (a / d) - 52), ← zpow_neg]
        congr 1
        omega
      rw [hzz]
      push_cast
      ring
    rw [hcast] at hm
    simpa [f64val] using close_scale _ _ (floorLog2 (a / d)) hq2 hm

theorem repr_len_one (b : ℕ) (hb : b < 10) : (Nat.repr b).length = 1 := by
  interval_cases b <;> rfl

theorem zeroPadLeft_one_digit (b : ℕ) (hb : b < 10) : zeroPadLeft 1 (Nat.repr b) = Nat.repr b := by
  rw [zeroPadLeft, repr_len_one b hb]
  norm_num

theorem qdiv_small (a d : ℕ) (hd : 0 < d) (ha : a < 2 ^ 53) :
    ((a : ℚ) / d) / 2 ^ 53 < 1 / d := by
  have hd' : (0 : ℚ) < d := by exact_mod_cast hd
  rw [div_div, div_lt_div_iff (by positivity) hd']
  have h1 : (a : ℚ) < 2 ^ 53 := by exact_mod_cast ha
  nlinarith

theorem divNatF64_dvd_repr (d k : ℕ) (hd : 0 < d) (hk1 : 1 ≤ k) (hk : k < 2 ^ 53) :
    f64isWhole (divNatF64 (d * k) d) = true ∧
    f64toFixed (divNatF64 (d * k) d) 0 = Nat.repr k := by
  have hdk : d * k / d = k := Nat.mul_div_cancel_left k hd
  obtain ⟨hlow, _⟩ := floorLog2_bounds k hk1
  have he52 : floorLog2 k ≤ 52 := by
    by_contra h
    have h1 : (2 : ℕ) ^ 53 ≤ 2 ^ floorLog2 k := Nat.pow_le_pow_right (by norm_num) (by omega)
    omega
  have hF : divNatF64 (d * k) d = ⟨k * 2 ^ (52 - floorLog2 k), (floorLog2 k : ℤ) - 52⟩ := by
    simp only [divNatF64, hdk]
    rw [if_pos he52]
    congr 1
    rw [show d * k * 2 ^ (52 - floorLog2 k) = d * (k * 2 ^ (52 - floorLog2 k)) by ring,
      rheFrac_dvd _ _ hd ⟨k * 2 ^ (52 - floorLog2 k), rfl⟩, Nat.mul_div_cancel_left _ hd]
  rw [hF]
  constructor
  · rw [f64isWhole]
    by_cases hex : ((floorLog2 k : ℤ) - 52) < 0
    · rw [if_pos hex]
      rw [show (-((floorLog2 k : ℤ) - 52)).toNat = 52 - floorLog2 k by omega]
      simp [Nat.mul_mod_left]
    · rw [if_neg hex]
  · rw [f64toFixed, f64scaled]
    by_cases hex : ((floorLog2 k : ℤ) - 52) < 0
    · rw [if_pos hex]
      rw [show (-((floorLog2 k : ℤ) - 52)).toNat = 52 - floorLog2 k by omega]
      simp only [pow_zero, mul_one]
      have hpos : 0 < 2 ^ (52 - floorLog2 k) := Nat.two_pow_pos _
      have hcomp : (2 * (k * 2 ^ (52 - floorLog2 k)) + 2 ^ (52 - floorLog2 k)) /
          (2 * 2 ^ (52 - floorLog2 k)) = k := by
        rw [show 2 * (k * 2 ^ (52 - floorLog2 k)) + 2 ^ (52 - floorLog2 k) =
            2 ^ (52 - floorLog2 k) * (2 * k + 1) by ring,
          show 2 * 2 ^ (52 - floorLog2 k) = 2 ^ (52 - floorLog2 k) * 2 by ring,
          Nat.mul_div_mul_left _ _ hpos]
        omega
      rw [hcomp]
      simp
    · rw [if_neg hex]
      have h52 : floorLog2 k = 52 := by omega
      rw [h52]
      norm_num
      congr 1
      omega

theorem divNatF64_val_frac (a d : ℕ) (hd : 0 < d) (hda : d ≤ a) (ha : a < 2 ^ 53)
    (hd2 : 2 ≤ d) :
    f64val (divNatF64 a d) =
      (rheFrac (a * 2 ^ (52 - floorLog2 (a / d))) d : ℚ) /
        ((2 ^ (52 - floorLog2 (a / d)) : ℕ) : ℚ) := by
  have he52 : floorLog2 (a / d) < 52 := floorLog2_le_of_quot a d hd2 hda ha
  have hF : divNatF64 a d = ⟨rheFrac (a * 2 ^ (52 - floorLog2 (a / d))) d,
      (floorLog2 (a / d) : ℤ) - 52⟩ := by
    simp only [divNatF64]
    rw [if_pos (le_of_lt he52)]
  have hone := pow_cast_mul_zpow (floorLog2 (a / d)) (le_of_lt he52)
  have hinv : (2 : ℚ) ^ ((floorLog2 (a / d) : ℤ) - 52) =
      (((2 ^ (52 - floorLog2 (a / d)) : ℕ) : ℚ))⁻¹ :=
    eq_inv_of_mul_eq_one_left (by rw [mul_comm] at hone; exact hone)
  rw [hF, f64val, hinv, div_eq_mul_inv]

theorem divNatF64_not_dvd (a d : ℕ) (hd2 : 2 ≤ d) (hda : d ≤ a) (ha : a < 2 ^ 53)
    (hndvd : ¬ d ∣ a) : f64isWhole (divNatF64 a d) = false := by
  have hd : 0 < d := by omega
  have hd' : (0 : ℚ) < d := by exact_mod_cast hd
  have he52 : floorLog2 (a / d) < 52 := floorLog2_le_of_quot a d hd2 hda ha
  have hclose := divNatF64_close a d hd hda
  have hvf := divNatF64_val_frac a d hd hda ha hd2
  have hF : divNatF64 a d = ⟨rheFrac (a * 2 ^ (52 - floorLog2 (a / d))) d,
      (floorLog2 (a / d) : ℤ) - 52⟩ := by
    simp only [divNatF64]
    rw [if_pos (le_of_lt he52)]
  have hW : f64isWhole (divNatF64 a d) =
      (rheFrac (a * 2 ^ (52 - floorLog2 (a / d))) d % 2 ^ (52 - floorLog2 (a / d)) == 0) := by
    rw [hF, f64isWhole, if_pos (by omega : ((floorLog2 (a / d) : ℤ) - 52) < 0),
      show (-((floorLog2 (a / d) : ℤ) - 52)).toNat = 52 - floorLog2 (a / d) by omega]
  rw [hW]
  by_contra hwhole
  rw [Bool.not_eq_false, beq_iff_eq] at hwhole
  obtain ⟨j, hj⟩ := Nat.dvd_of_mod_eq_zero hwhole
  have hval : f64val (divNatF64 a d) = (j : ℚ) := by
    rw [hvf, hj]
    push_cast
    field_simp
  rw [hval] at hclose
  have hsmall := qdiv_small a d hd ha
  have hrd : a % d < d := Nat.mod_lt a hd
  have hr0 : a % d ≠ 0 := fun h => hndvd (Nat.dvd_of_mod_eq_zero h)
  have hq_eq : (a : ℚ) / d = ((a / d : ℕ) : ℚ) + ((a % d : ℕ) : ℚ) / d := by
    have h0 : a = a / d * d + a % d := (Nat.div_add_mod' a d).symm
    calc (a : ℚ) / d = ((a / d * d + a % d : ℕ) : ℚ) / d := by rw [← h0]
      _ = ((a / d : ℕ) : ℚ) + ((a % d : ℕ) : ℚ) / d := by
          push_cast
          rw [add_div, mul_div_cancel_right₀ _ (ne_of_gt hd')]
  have hr1 : (1 : ℚ) ≤ ((a % d : ℕ) : ℚ) := by
    exact_mod_cast Nat.one_le_iff_ne_zero.mpr hr0
  have hrup : ((a % d : ℕ) : ℚ) ≤ (d : ℚ) - 1 := by
    have h1 : a % d + 1 ≤ d := hrd
    have h2 := (Nat.cast_le (α := ℚ)).mpr h1
    push_cast at h2
    linarith
  have hone_div : (1 : ℚ) / d ≤ |(j : ℚ) - (a : ℚ) / d| := by
    rcases le_or_lt j (a / d) with hjk | hjk
    · have hcast : (j : ℚ) ≤ ((a / d : ℕ) : ℚ) := Nat.cast_le.mpr hjk
      have h1 : (1 : ℚ) / d ≤ ((a % d : ℕ) : ℚ) / d := by
        rw [div_le_div_iff hd' hd']
        nlinarith
      rw [abs_sub_comm]
      refine le_trans ?_ (le_abs_self _)
      rw [hq_eq]
      linarith
    · have hcast : ((a / d : ℕ) : ℚ) + 1 ≤ (j : ℚ) := by
        have h1 : a / d + 1 ≤ j := hjk
        exact_mod_cast h1
      refine le_trans ?_ (le_abs_self _)
      rw [hq_eq]
      have hdiv : ((a % d : ℕ) : ℚ) / d ≤ ((d : ℚ) - 1) / d := by
        rw [div_le_div_iff hd' hd']
        nlinarith
      have hexp : ((d : ℚ) - 1) / d = 1 - 1 / d := by
        field_simp
      linarith
  linarith

theorem f64val_neg (m em : ℕ) : f64val ⟨m, -(em : ℤ)⟩ = (m : ℚ) / ((2 ^ em : ℕ) : ℚ) := by
  rw [f64val]
  show (m : ℚ) * (2 : ℚ) ^ (-((em : ℕ) : ℤ)) = _
  rw [zpow_neg, zpow_natCast]
  push_cast
  ring

theorem f64scaled_one (m em : ℕ) :
    f64scaled ⟨m, -(em : ℤ)⟩ 1 = (m * 10, 2 ^ em) := by
  rw [f64scaled]
  by_cases h : em = 0
  · subst h
    norm_num
  · rw [if_pos (show (Float64.mk m (-(em : ℤ))).exponent < 0 by simp; omega),
      show (-(-((em : ℕ) : ℤ))).toNat = em by omega]
    norm_num

theorem toFixed_one_close (m em : ℕ) :
    ∃ p b : ℕ, b < 10 ∧
      f64toFixed ⟨m, -(em : ℤ)⟩ 1 = Nat.repr p ++ "." ++ Nat.repr b ∧
      |((p : ℚ) + (b : ℚ) / 10) - f64val ⟨m, -(em : ℤ)⟩| ≤ 1 / 20 := by
  have hS : 0 < 2 ^ em := Nat.two_pow_pos em
  refine ⟨(2 * (m * 10) + 2 ^ em) / (2 * 2 ^ em) / 10,
    (2 * (m * 10) + 2 ^ em) / (2 * 2 ^ em) % 10, Nat.mod_lt _ (by norm_num), ?_, ?_⟩
  · rw [f64toFixed, f64scaled_one]
    norm_num [zeroPadLeft_one_digit _ (Nat.mod_lt _ (by norm_num : (0:ℕ) < 10))]
  · have hround := natRound_close (m * 10) (2 ^ em) hS
    have hval : f64val ⟨m, -(em : ℤ)⟩ = (m : ℚ) / ((2 ^ em : ℕ) : ℚ) := f64val_neg m em
    set t := (2 * (m * 10) + 2 ^ em) / (2 * 2 ^ em) with ht
    have hscale : ((m * 10 : ℕ) : ℚ) / ((2 ^ em : ℕ) : ℚ) =
        10 * ((m : ℚ) / ((2 ^ em : ℕ) : ℚ)) := by
      push_cast
      ring
    rw [hscale] at hround
    have htenth : ((t / 10 : ℕ) : ℚ) + ((t % 10 : ℕ) : ℚ) / 10 = (t : ℚ) / 10 := by
      have h0 : t = 10 * (t / 10) + t % 10 := (Nat.div_add_mod t 10).symm
      calc ((t / 10 : ℕ) : ℚ) + ((t % 10 : ℕ) : ℚ) / 10
          = ((10 * (t / 10) + t % 10 : ℕ) : ℚ) / 10 := by push_cast; ring
        _ = (t : ℚ) / 10 := by rw [← h0]
    rw [hval, htenth]
    have key : (t : ℚ) / 10 - (m : ℚ) / ((2 ^ em : ℕ) : ℚ) =
        ((t : ℚ) - 10 * ((m : ℚ) / ((2 ^ em : ℕ) : ℚ))) / 10 := by ring
    rw [key, abs_div, show |(10 : ℚ)| = 10 by norm_num]
    linarith

theorem divNatF64_toFixed_one (a d : ℕ) (hd1000 : 1000 ≤ d) (hda : d ≤ a)
    (ha : a < 2 ^ 53) :
    ∃ p b : ℕ, b < 10 ∧
      f64toFixed (divNatF64 a d) 1 = Nat.repr p ++ "." ++ Nat.repr b ∧
      |((p : ℚ) + (b : ℚ) / 10) - (a : ℚ) / d| < 1 / 10 := by
  have hd : 0 < d := by omega
  have hd' : (0 : ℚ) < d := by exact_mod_cast hd
  have he52 : floorLog2 (a / d) < 52 := floorLog2_le_of_quot a d (by omega) hda ha
  have hclose := divNatF64_close a d hd hda
  have hsmall := qdiv_small a d hd ha
  have hF : divNatF64 a d = ⟨rheFrac (a * 2 ^ (52 - floorLog2 (a / d))) d,
      -(((52 - floorLog2 (a / d) : ℕ)) : ℤ)⟩ := by
    simp only [divNatF64]
    rw [if_pos (le_of_lt he52)]
    congr 1
    omega
  obtain ⟨p, b, hb, hform, hacc⟩ :=
    toFixed_one_close (rheFrac (a * 2 ^ (52 - floorLog2 (a / d))) d) (52 - floorLog2 (a / d))
  refine ⟨p, b, hb, ?_, ?_⟩
  · rw [hF]
    exact hform
  · rw [show (⟨rheFrac (a * 2 ^ (52 - floorLog2 (a / d))) d,
        -(((52 - floorLog2 (a / d) : ℕ)) : ℤ)⟩ : Float64) = divNatF64 a d from hF.symm] at hacc
    have h1d : (1 : ℚ) / d ≤ 1 / 1000 :=
      one_div_le_one_div_of_le (by norm_num) (by exact_mod_cast hd1000)
    calc |((p : ℚ) + (b : ℚ) / 10) - (a : ℚ) / d|
        ≤ |((p : ℚ) + (b : ℚ) / 10) - f64val (divNatF64 a d)| +
            |f64val (divNatF64 a d) - (a : ℚ) / d| := abs_sub_le _ _ _
      _ ≤ 1 / 20 + (a : ℚ) / d / 2 ^ 53 := add_le_add hacc hclose
      _ < 1 / 20 + 1 / d := by linarith
      _ ≤ 1 / 20 + 1 / 1000 := by linarith
      _ < 1 / 10 := by norm_num

theorem formatNumber_small (n : ℤ) (h : n.natAbs < 1000) :
    formatNumber n = (if n < 0 then "-" else "") ++ Nat.repr n.natAbs := by
  simp only [formatNumber]
  rw [if_pos h]

theorem formatNumber_mid (n : ℤ) (h1 : ¬ n.natAbs < 1000) (h2 : n.natAbs < 1000000) :
    formatNumber n = (if n < 0 then "-" else "") ++
      f64toFixed (divNatF64 n.natAbs 1000)
        (if f64isWhole (divNatF64 n.natAbs 1000) then 0 else 1) ++ "K" := by
  simp only [formatNumber]
  rw [if_neg h1, if_pos h2]

theorem formatNumber_big (n : ℤ) (h1 : ¬ n.natAbs < 1000) (h2 : ¬ n.natAbs < 1000000) :
    formatNumber n = (if n < 0 then "-" else "") ++
      f64toFixed (divNatF64 n.natAbs 1000000)
        (if f64isWhole (divNatF64 n.natAbs 1000000) then 0 else 1) ++ "M" := by
  simp only [formatNumber]
  rw [if_neg h1, if_neg h2]

theorem empty_string_append (s : String) : "" ++ s = s := rfl

theorem containsArrow_cons_of_ne (c : Char) (X : List Char) (hc : ¬ c = '-') :
    containsArrow (c :: X) = containsArrow X := by
  rw [containsArrow.eq_def]
  split
  · rename_i heq
    injection heq with h1 _
    exact absurd h1 hc
  · rename_i c2 t2 hne heq
    injection heq with h1 h2
    rw [h2]
  · rename_i heq
    simp at heq

theorem containsArrow_dash_cons (X : List Char) (hx : X.take 2 ≠ ['-', '>']) :
    containsArrow ('-' :: X) = containsArrow X := by
  rw [containsArrow.eq_def]
  split
  · rename_i heq
    injection heq with _ h2
    exact absurd (by rw [h2]; rfl) hx
  · rename_i c2 t2 hne heq
    injection heq with h1 h2
    rw [h2]
  · rename_i heq
    simp at heq

theorem replArrow_cons_eq (c : Char) (t : List Char)
    (h : ∀ t1 : List Char, c = '-' → t = '-' :: '>' :: t1 → False) :
    replArrow (c :: t) = c :: replArrow t := by
  rw [replArrow.eq_def]
  split
  · rename_i heq
    injection heq with h1 h2
    exact absurd h2 (fun habs => h _ h1 habs)
  · rename_i c2 t2 hne heq
    injection heq with h1 h2
    rw [h1, h2]
  · rename_i heq
    simp at heq

theorem replArrow_take_one (u : List Char) (h : (replArrow u).take 1 = ['>']) :
    u.take 1 = ['>'] := by
  cases u with
  | nil => simp [replArrow] at h
  | cons c u1 =>
    rw [replArrow.eq_def] at h
    split at h
    · rename_i heq
      simp at h
    · rename_i c2 t2 hne heq
      injection heq with h1 h2
      simp at h
      rw [h1, h]
      rfl
    · rename_i heq
      simp at heq

theorem replArrow_take_two (t : List Char) (h : (replArrow t).take 2 = ['-', '>']) :
    t.take 2 = ['-', '>'] := by
  cases t with
  | nil => simp [replArrow] at h
  | cons c t1 =>
    rw [replArrow.eq_def] at h
    split at h
    · rename_i heq
      simp at h
    · rename_i c2 t2 hne heq
      injection heq with h1 h2
      simp at h
      obtain ⟨hc2, htake⟩ := h
      have ht2 := replArrow_take_one t2 htake
      rw [h1, h2, hc2]
      cases t2 with
      | nil => simp at ht2
      | cons a l =>
        simp at ht2
        simp [ht2]
    · rename_i heq
      simp at heq

theorem containsArrow_replArrow (l : List Char) : containsArrow (replArrow l) = false := by
  induction l using replArrow.induct with
  | case1 t ih =>
    rw [show replArrow ('-' :: '-' :: '>' :: t) =
        'â' :: '€' :: '”' :: '>' :: replArrow t from rfl]
    rw [containsArrow_cons_of_ne _ _ (by decide), containsArrow_cons_of_ne _ _ (by decide),
      containsArrow_cons_of_ne _ _ (by decide), containsArrow_cons_of_ne _ _ (by decide)]
    exact ih
  | case2 c t h ih =>
    rw [replArrow_cons_eq c t h]
    by_cases hc : c = '-'
    · subst hc
      have hX : (replArrow t).take 2 ≠ ['-', '>'] := by
        intro habs
        have ht := replArrow_take_two t habs
        cases t with
        | nil => simp at ht
        | cons a l =>
          simp at ht
          obtain ⟨ha, hl⟩ := ht
          cases l with
          | nil => simp at hl
          | cons b l2 =>
            simp at hl
            exact h l2 rfl (by rw [ha, hl])
      rw [containsArrow_dash_cons _ hX]
      exact ih
    · rw [containsArrow_cons_of_ne _ _ hc]
      exact ih
  | case3 => rfl

theorem workerFetch_hit (i : FetchInput) (r : HttpResponse) (h : i.cached = some r) :
    workerFetch i = ⟨r, false, none, none⟩ := by
  rw [workerFetch, h]

theorem workerFetch_auth_throws (i : FetchInput) (msg : String) (h0 : i.cached = none)
    (h1 : i.auth = AuthResult.throws msg) :
    workerFetch i = ⟨catchResponse msg i.nowIso, false, none, none⟩ := by
  rw [workerFetch, h0, h1]

theorem workerFetch_auth_none (i : FetchInput) (h0 : i.cached = none)
    (h1 : i.auth = AuthResult.token none) :
    workerFetch i =
      ⟨catchResponse "generating Google auth token failed" i.nowIso, false, none, none⟩ := by
  rw [workerFetch, h0, h1]

theorem workerFetch_not_get (i : FetchInput) (tok : String) (h0 : i.cached = none)
    (h1 : i.auth = AuthResult.token (some tok)) (h2 : i.method ≠ "GET") :
    workerFetch i = ⟨textResponse405 "Method not allowed", false, none, none⟩ := by
  simp [workerFetch, h0, h1, h2]

theorem workerFetch_no_path (i : FetchInput) (tok : String) (h0 : i.cached = none)
    (h1 : i.auth = AuthResult.token (some tok)) (h2 : i.method = "GET")
    (h3 : findPagePath i.queryParams = none) :
    workerFetch i = ⟨textResponse405 "page_path not available", false, none, none⟩ := by
  simp [workerFetch, h0, h1, h2, h3]

theorem workerFetch_empty_path (i : FetchInput) (tok : String) (h0 : i.cached = none)
    (h1 : i.auth = AuthResult.token (some tok)) (h2 : i.method = "GET")
    (h3 : findPagePath i.queryParams = some "") :
    workerFetch i = ⟨textResponse405 "page_path not available", false, none, none⟩ := by
  simp [workerFetch, h0, h1, h2, h3]

theorem workerFetch_backend_throws (i : FetchInput) (tok p msg : String) (h0 : i.cached = none)
    (h1 : i.auth = AuthResult.token (some tok)) (h2 : i.method = "GET")
    (h3 : findPagePath i.queryParams = some p) (h4 : p ≠ "")
    (h5 : i.backend = BackendResult.throws msg) :
    workerFetch i =
      ⟨catchResponse msg i.nowIso, true, some (buildRequestBody p i.today), none⟩ := by
  simp [workerFetch, h0, h1, h2, h3, h4, h5]

theorem workerFetch_backend_httpError (i : FetchInput) (tok p t : String) (h0 : i.cached = none)
    (h1 : i.auth = AuthResult.token (some tok)) (h2 : i.method = "GET")
    (h3 : findPagePath i.queryParams = some p) (h4 : p ≠ "")
    (h5 : i.backend = BackendResult.httpError t) :
    workerFetch i =
      ⟨upstreamErrorResponse t, true, some (buildRequestBody p i.today), none⟩ := by
  simp [workerFetch, h0, h1, h2, h3, h4, h5]

theorem workerFetch_backend_parse_throws (i : FetchInput) (tok p msg : String)
    (h0 : i.cached = none) (h1 : i.auth = AuthResult.token (some tok)) (h2 : i.method = "GET")
    (h3 : findPagePath i.queryParams = some p) (h4 : p ≠ "")
    (h5 : i.backend = BackendResult.ok (Except.error msg)) :
    workerFetch i =
      ⟨catchResponse msg i.nowIso, true, some (buildRequestBody p i.today), none⟩ := by
  simp [workerFetch, h0, h1, h2, h3, h4, h5]

theorem workerFetch_success (i : FetchInput) (tok p : String) (data : Report)
    (h0 : i.cached = none) (h1 : i.auth = AuthResult.token (some tok)) (h2 : i.method = "GET")
    (h3 : findPagePath i.queryParams = some p) (h4 : p ≠ "")
    (h5 : i.backend = BackendResult.ok (Except.ok data))
    (h6 : (reportDimensionValues data).all Option.isSome = true) :
    workerFetch i = ⟨successResponse data, true, some (buildRequestBody p i.today),
      some (successResponse data)⟩ := by
  simp [workerFetch, h0, h1, h2, h3, h4, h5, h6]

theorem workerFetch_dims_missing (i : FetchInput) (tok p : String) (data : Report)
    (h0 : i.cached = none) (h1 : i.auth = AuthResult.token (some tok)) (h2 : i.method = "GET")
    (h3 : findPagePath i.queryParams = some p) (h4 : p ≠ "")
    (h5 : i.backend = BackendResult.ok (Except.ok data))
    (h6 : ¬ (reportDimensionValues data).all Option.isSome = true) :
    workerFetch i = ⟨catchResponse jsUndefinedReplaceMessage i.nowIso, true,
      some (buildRequestBody p i.today), none⟩ := by
  simp [workerFetch, h0, h1, h2, h3, h4, h5, h6]

theorem workerFetch_shape (i : FetchInput) (h0 : i.cached = none) :
    (∃ m, i.auth = AuthResult.throws m ∧
        workerFetch i = ⟨catchResponse m i.nowIso, false, none, none⟩) ∨
    (i.auth = AuthResult.token none ∧
        workerFetch i = ⟨catchResponse "generating Google auth token failed" i.nowIso,
          false, none, none⟩) ∨
    (∃ tok, i.auth = AuthResult.token (some tok) ∧
      ((i.method ≠ "GET" ∧
          workerFetch i = ⟨textResponse405 "Method not allowed", false, none, none⟩) ∨
       (i.method = "GET" ∧
          (findPagePath i.queryParams = none ∨ findPagePath i.queryParams = some "") ∧
          workerFetch i = ⟨textResponse405 "page_path not available", false, none, none⟩) ∨
       (i.method = "GET" ∧ ∃ p, findPagePath i.queryParams = some p ∧ p ≠ "" ∧
          ((∃ m, i.backend = BackendResult.throws m ∧ workerFetch i =
              ⟨catchResponse m i.nowIso, true, some (buildRequestBody p i.today), none⟩) ∨
           (∃ t, i.backend = BackendResult.httpError t ∧ workerFetch i =
              ⟨upstreamErrorResponse t, true, some (buildRequestBody p i.today), none⟩) ∨
           (∃ m, i.backend = BackendResult.ok (Except.error m) ∧ workerFetch i =
              ⟨catchResponse m i.nowIso, true, some (buildRequestBody p i.today), none⟩) ∨
           (∃ data, i.backend = BackendResult.ok (Except.ok data) ∧
              (((reportDimensionValues data).all Option.isSome = true ∧ workerFetch i =
                  ⟨successResponse data, true, some (buildRequestBody p i.today),
                    some (successResponse data)⟩) ∨
               (¬ (reportDimensionValues data).all Option.isSome = true ∧ workerFetch i =
                  ⟨catchResponse jsUndefinedReplaceMessage i.nowIso, true,
                    some (buildRequestBody p i.today), none⟩))))))) := by
  cases hauth : i.auth with
  | throws m => exact Or.inl ⟨m, rfl, workerFetch_auth_throws i m h0 hauth⟩
  | token t =>
    cases t with
    | none => exact Or.inr (Or.inl ⟨rfl, workerFetch_auth_none i h0 hauth⟩)
    | some tok =>
      refine Or.inr (Or.inr ⟨tok, rfl, ?_⟩)
      by_cases hm : i.method = "GET"
      · rcases hfp : findPagePath i.queryParams with _ | p
        · exact Or.inr (Or.inl ⟨hm, Or.inl rfl, workerFetch_no_path i tok h0 hauth hm hfp⟩)
        · by_cases hp : p = ""
          · subst hp
            exact Or.inr (Or.inl ⟨hm, Or.inr rfl, workerFetch_empty_path i tok h0 hauth hm hfp⟩)
          · refine Or.inr (Or.inr ⟨hm, p, rfl, hp, ?_⟩)
            cases hb : i.backend with
            | throws m =>
              exact Or.inl ⟨m, rfl, workerFetch_backend_throws i tok p m h0 hauth hm hfp hp hb⟩
            | httpError t =>
              exact Or.inr (Or.inl ⟨t, rfl,
                workerFetch_backend_httpError i tok p t h0 hauth hm hfp hp hb⟩)
            | ok parsed =>
              cases parsed with
              | error m =>
                exact Or.inr (Or.inr (Or.inl ⟨m, rfl,
                  workerFetch_backend_parse_throws i tok p m h0 hauth hm hfp hp hb⟩))
              | ok data =>
                refine Or.inr (Or.inr (Or.inr ⟨data, rfl, ?_⟩))
                by_cases hall : (reportDimensionValues data).all Option.isSome = true
                · exact Or.inl ⟨hall,
                    workerFetch_success i tok p data h0 hauth hm hfp hp hb hall⟩
                · exact Or.inr ⟨hall,
                    workerFetch_dims_missing i tok p data h0 hauth hm hfp hp hb hall⟩
      · exact Or.inl ⟨hm, workerFetch_not_get i tok h0 hauth hm⟩

/-- C1 counterexample: a single row whose metric value is the non numeric
string abc makes totalCount NaN (none), not a well defined integer equal to
the sum of the validly parsed values (which would be 0 here). -/
theorem reportCounts_nan_counterexample :
    reportCounts ⟨some [⟨[], [⟨some "abc"⟩]⟩]⟩ = none ∧
    parseIntJS "abc" = none ∧
    (none : JSNum) ≠ some (0 : ℤ) :=
  ⟨by decide, by decide, by decide⟩

/-- C1 (corrected): parse behaviour of the aggregation. A missing metric
value contributes 0 through the default string 0, and the request never
fails; but a fully non numeric value parses to NaN and NaN propagates
through the reduction, so totalCount is NaN exactly when some metric value
slot fails to parse, rather than being the sum of the validly parsed
values. -/
theorem reportCounts_parse_characterization (data : Report) :
    (reportCounts data = none ↔
      ∃ v ∈ getValues data RowKey.metricValues, parseIntJS (v.getD "0") = none) ∧
    parseIntJS ((none : Option String).getD "0") = some 0 := by
  constructor
  · rw [reportCounts, jsSum_eq_none_iff]
    constructor
    · intro h
      obtain ⟨v, hv, hveq⟩ := List.mem_map.mp h
      exact ⟨v, hv, hveq⟩
    · rintro ⟨v, hv, hveq⟩
      exact List.mem_map.mpr ⟨v, hv, hveq⟩
  · decide

/-- C1 witness: a report with one missing and one numeric metric value; the
characterization proves its totalCount is not NaN, and evaluation gives the
parsed sum. -/
theorem reportCounts_parse_characterization_witness :
    reportCounts ⟨some [⟨[], [⟨some "xyz"⟩]⟩]⟩ = none :=
  (reportCounts_parse_characterization ⟨some [⟨[], [⟨some "xyz"⟩]⟩]⟩).1.mpr
    ⟨some "xyz", by decide, by decide⟩

/-- C6 counterexample: with metric values abc and 5 the code produces NaN
(none) as totalCount, not the sum of the parsed metric values. -/
theorem aggregator_sum_counterexample :
    reportCounts ⟨some [⟨[], [⟨some "abc"⟩, ⟨some "5"⟩]⟩]⟩ = none ∧
    parseIntJS "5" = some 5 :=
  ⟨by decide, by decide⟩

/-- C6 (corrected): the aggregator collects all dimension values across the
rows in row order unconditionally, yields totalCount 0 and the empty list on
an empty or absent rows field, and produces the sum of all parsed metric
values whenever every metric value parses; when one does not, totalCount is
NaN. -/
theorem aggregator_behavior (data : Report) :
    reportDimensionValues data =
      (data.rows.getD []).flatMap (fun r => r.dimensionValues.map (fun v => v.value)) ∧
    ((∀ v ∈ (data.rows.getD []).flatMap (fun r => r.metricValues.map (fun v => v.value)),
        (parseIntJS (v.getD "0")).isSome = true) →
      reportCounts data = some
        ((((data.rows.getD []).flatMap (fun r => r.metricValues.map (fun v => v.value))).filterMap
          (fun v => parseIntJS (v.getD "0"))).sum)) ∧
    (data.rows = none ∨ data.rows = some [] →
      reportCounts data = some 0 ∧ reportDimensionValues data = []) := by
  refine ⟨getValues_dimensionValues data, ?_, ?_⟩
  · intro hall
    rw [reportCounts, getValues_metricValues, jsSum_eq_sum]
    · rw [List.filterMap_map]
      rfl
    · intro x hx
      obtain ⟨v, hv, rfl⟩ := List.mem_map.mp hx
      have hs := hall v hv
      intro habs
      rw [habs] at hs
      simp at hs
  · intro hcase
    obtain ⟨rows⟩ := data
    rcases hcase with h | h <;> rw [show rows = _ from h] <;> exact ⟨by decide, by decide⟩

/-- C6 witness: one row with two parseable metric values; the theorem gives
the filterMap sum. -/
theorem aggregator_behavior_witness :
    reportCounts ⟨some [⟨[⟨some "/blog"⟩], [⟨some "7"⟩, ⟨some "35"⟩]⟩]⟩ = some
      ((((Report.mk (some [⟨[⟨some "/blog"⟩], [⟨some "7"⟩, ⟨some "35"⟩]⟩])).rows.getD
          []).flatMap (fun r => r.metricValues.map (fun v => v.value))).filterMap
        (fun v => parseIntJS (v.getD "0"))).sum :=
  (aggregator_behavior _).2.1 (by decide)

/-- C4 counterexample: at the integer 9007199254740992500000 the binary64
quotient by 1000000 rounds (ties to even) to the whole double 2 to the 53,
so the source prints zero decimals although the exact rational quotient is
not whole; the output contains no decimal digit, against the stated
rendering rule for quotients that are not whole numbers. -/
theorem formatNumber_whole_double_counterexample :
    formatNumber 9007199254740992500000 = "9007199254740992M" ∧
    ¬ (1000000 ∣ (9007199254740992500000 : ℤ).natAbs) ∧
    '.' ∉ "9007199254740992M".data :=
  ⟨by decide, by decide, by decide⟩

/-- C4 (corrected): the formatter renders magnitudes below 1000 as the
truncated integer with a leading dash when negative; in the thousands range
it appends K, printing the exact quotient with zero decimals exactly when
1000 divides the magnitude, and otherwise one decimal digit within a tenth
of the exact quotient; the same holds with divisor 1000000 and suffix M for
magnitudes up to 10 to the 15 (beyond that the binary64 quotient can round
to a whole double, see the counterexample); the six concrete examples hold
as stated. -/
theorem formatNumber_rendering :
    (formatNumber 0 = "0" ∧ formatNumber 999 = "999" ∧ formatNumber 1000 = "1K" ∧
      formatNumber 1500 = "1.5K" ∧ formatNumber 2500000 = "2.5M" ∧
      formatNumber (-42) = "-42") ∧
    (∀ n : ℤ, n.natAbs < 1000 →
      formatNumber n = (if n < 0 then "-" else "") ++ Nat.repr n.natAbs) ∧
    (∀ n : ℤ, 1000 ≤ n.natAbs → n.natAbs < 1000000 →
      ((1000 ∣ n.natAbs →
        formatNumber n = (if n < 0 then "-" else "") ++ Nat.repr (n.natAbs / 1000) ++ "K") ∧
       (¬ 1000 ∣ n.natAbs → ∃ p b : ℕ, b < 10 ∧
        formatNumber n = (if n < 0 then "-" else "") ++ Nat.repr p ++ "." ++ Nat.repr b ++ "K" ∧
        |((p : ℚ) + (b : ℚ) / 10) - (n.natAbs : ℚ) / 1000| < 1 / 10))) ∧
    (∀ n : ℤ, 1000000 ≤ n.natAbs → n.natAbs < 10 ^ 15 →
      ((1000000 ∣ n.natAbs →
        formatNumber n = (if n < 0 then "-" else "") ++ Nat.repr (n.natAbs / 1000000) ++ "M") ∧
       (¬ 1000000 ∣ n.natAbs → ∃ p b : ℕ, b < 10 ∧
        formatNumber n = (if n < 0 then "-" else "") ++ Nat.repr p ++ "." ++ Nat.repr b ++ "M" ∧
        |((p : ℚ) + (b : ℚ) / 10) - (n.natAbs : ℚ) / 1000000| < 1 / 10))) := by
  refine ⟨⟨by decide, by decide, by decide, by decide, by decide, by decide⟩, ?_, ?_, ?_⟩
  · intro n h
    exact formatNumber_small n h
  · intro n h1 h2
    have h1' : ¬ n.natAbs < 1000 := by omega
    constructor
    · intro hdvd
      obtain ⟨k, hk⟩ := hdvd
      have hk1 : 1 ≤ k := by omega
      have hk53 : k < 2 ^ 53 := by
        have hpow : (2 : ℕ) ^ 53 = 9007199254740992 := by norm_num
        omega
      obtain ⟨hw, hfix⟩ := divNatF64_dvd_repr 1000 k (by norm_num) hk1 hk53
      rw [formatNumber_mid n h1' h2, hk, hw, if_pos rfl, hfix,
        show (1000 * k) / 1000 = k from Nat.mul_div_cancel_left k (by norm_num)]
    · intro hndvd
      have hne : n.natAbs < 2 ^ 53 := by
        have hpow : (2 : ℕ) ^ 53 = 9007199254740992 := by norm_num
        omega
      have hw := divNatF64_not_dvd n.natAbs 1000 (by norm_num) h1 hne hndvd
      obtain ⟨p, b, hb, hfix, hacc⟩ := divNatF64_toFixed_one n.natAbs 1000 (by norm_num) h1 hne
      refine ⟨p, b, hb, ?_, ?_⟩
      · rw [formatNumber_mid n h1' h2, hw, if_neg (by decide : ¬ false = true), hfix]
        simp [String.append_assoc]
      · exact_mod_cast hacc
  · intro n h1 h2
    have h1' : ¬ n.natAbs < 1000 := by omega
    have h2' : ¬ n.natAbs < 1000000 := by omega
    constructor
    · intro hdvd
      obtain ⟨k, hk⟩ := hdvd
      have hk1 : 1 ≤ k := by omega
      have hk53 : k < 2 ^ 53 := by
        have hpow : (2 : ℕ) ^ 53 = 9007199254740992 := by norm_num
        have hten : (10 : ℕ) ^ 15 = 1000000000000000 := by norm_num
        omega
      obtain ⟨hw, hfix⟩ := divNatF64_dvd_repr 1000000 k (by norm_num) hk1 hk53
      rw [formatNumber_big n h1' h2', hk, hw, if_pos rfl, hfix,
        show (1000000 * k) / 1000000 = k from Nat.mul_div_cancel_left k (by norm_num)]
    · intro hndvd
      have hne : n.natAbs < 2 ^ 53 := by
        have hpow : (2 : ℕ) ^ 53 = 9007199254740992 := by norm_num
        have hten : (10 : ℕ) ^ 15 = 1000000000000000 := by norm_num
        omega
      have hw := divNatF64_not_dvd n.natAbs 1000000 (by norm_num) h1 hne hndvd
      obtain ⟨p, b, hb, hfix, hacc⟩ :=
        divNatF64_toFixed_one n.natAbs 1000000 (by norm_num) h1 hne
      refine ⟨p, b, hb, ?_, ?_⟩
      · rw [formatNumber_big n h1' h2', hw, if_neg (by decide : ¬ false = true), hfix]
        simp [String.append_assoc]
      · exact_mod_cast hacc

/-- C4 witness: the amended theorem applied at 2000 in the divisible K
branch. -/
theorem formatNumber_rendering_witness :
    formatNumber 2000 = (if (2000 : ℤ) < 0 then "-" else "") ++
      Nat.repr ((2000 : ℤ).natAbs / 1000) ++ "K" :=
  (formatNumber_rendering.2.2.1 2000 (by decide) (by decide)).1 (by decide)

/-- C5 (confirmed): for every positive integer, formatting the negation
prepends a dash, since every branch of the formatter depends only on the
absolute value apart from the sign prefix. -/
theorem formatNumber_negation (n : ℤ) (h : 0 < n) :
    formatNumber (-n) = "-" ++ formatNumber n := by
  have hn : ¬ n < 0 := by omega
  have hneg : -n < 0 := by omega
  have hab : (-n).natAbs = n.natAbs := Int.natAbs_neg n
  rcases lt_or_ge n.natAbs 1000 with h1 | h1
  · rw [formatNumber_small n h1, formatNumber_small (-n) (by rwa [hab]), hab,
      if_pos hneg, if_neg hn, empty_string_append]
  · have h1' : ¬ n.natAbs < 1000 := by omega
    have h1n : ¬ (-n).natAbs < 1000 := by rwa [hab]
    rcases lt_or_ge n.natAbs 1000000 with h2 | h2
    · rw [formatNumber_mid n h1' h2, formatNumber_mid (-n) h1n (by rwa [hab]), hab,
        if_pos hneg, if_neg hn, empty_string_append, String.append_assoc]
    · have h2' : ¬ n.natAbs < 1000000 := by omega
      have h2n : ¬ (-n).natAbs < 1000000 := by rwa [hab]
      rw [formatNumber_big n h1' h2', formatNumber_big (-n) h1n h2n, hab,
        if_pos hneg, if_neg hn, empty_string_append, String.append_assoc]

/-- C5 witness: the negation law applied at 1500. -/
theorem formatNumber_negation_witness :
    formatNumber (-1500) = "-" ++ formatNumber 1500 :=
  formatNumber_negation 1500 (by norm_num)

/-- C7 (confirmed): the query builder fixes the start date 2024-01-01, ends
at the current UTC date plus one day rendered as an ISO date, always uses
the CONTAINS (substring) match mode, and filters on the caller supplied
page path lower-cased and trimmed. -/
theorem queryBuilder_properties (page_path : String) (today : CivilDate)
    (hp : page_path ≠ "") :
    (buildRequestBody page_path today).startDate = "2024-01-01" ∧
    (buildRequestBody page_path today).endDate = ymdString (nextDay today) ∧
    (buildRequestBody page_path today).matchType = "CONTAINS" ∧
    (buildRequestBody page_path today).filterValue = jsTrim (jsToLowerCase page_path) ∧
    (buildRequestBody page_path today).dimensionName = "pagePath" ∧
    (buildRequestBody page_path today).metricName = "screenPageViews" :=
  ⟨rfl, rfl, rfl, rfl, rfl, rfl⟩

/-- C7 witness: the builder applied to a mixed case path on a leap day. -/
theorem queryBuilder_properties_witness :
    (buildRequestBody "Post" ⟨2024, 2, 28⟩).startDate = "2024-01-01" ∧
    (buildRequestBody "Post" ⟨2024, 2, 28⟩).endDate = ymdString (nextDay ⟨2024, 2, 28⟩) ∧
    (buildRequestBody "Post" ⟨2024, 2, 28⟩).matchType = "CONTAINS" ∧
    (buildRequestBody "Post" ⟨2024, 2, 28⟩).filterValue = jsTrim (jsToLowerCase "Post") ∧
    (buildRequestBody "Post" ⟨2024, 2, 28⟩).dimensionName = "pagePath" ∧
    (buildRequestBody "Post" ⟨2024, 2, 28⟩).metricName = "screenPageViews" :=
  queryBuilder_properties "Post" ⟨2024, 2, 28⟩ (by decide)

/-- C8 counterexample: a metadata string containing a double dash survives
the substitution unchanged and yields a comment whose content contains a
double dash, which the XML Comment production forbids, so the document is
not well-formed for this input. -/
theorem generateBadge_wellformed_counterexample :
    xmlCommentsWellFormed (generateBadge "readers" "42" ["a--b"]) = false := by
  decide

/-- C8 (corrected): the substitution applied to each metadata item removes
every occurrence of the comment terminator sequence, so no metadata string
can close its comment prematurely; the renderer itself is a pure function of
its inputs, hence deterministic; well-formedness of the whole document for
arbitrary inputs is refuted by the counterexample. -/
theorem metadata_comment_no_terminator (item : String) :
    containsArrow ((jsReplaceArrow item).data) = false :=
  containsArrow_replArrow item.data

/-- C2 (confirmed): the response cache is written only after a fully
successful render: on every input the only cache.put stores exactly the
returned response and that response has status 200; and a non success
backend response is answered with status 500 carrying the backend error
body, with no cache write. -/
theorem cachePut_only_on_success (i : FetchInput) :
    ((workerFetch i).cachePut.isSome = true →
      (workerFetch i).cachePut = some ((workerFetch i).response) ∧
      (workerFetch i).response.status = 200) ∧
    (∀ tok p errTxt, i.cached = none → i.auth = AuthResult.token (some tok) →
      i.method = "GET" → findPagePath i.queryParams = some p → p ≠ "" →
      i.backend = BackendResult.httpError errTxt →
      (workerFetch i).response.status = 500 ∧
      (workerFetch i).response.body = jsonErrorBodyIndent4 errTxt ∧
      (workerFetch i).cachePut = none) := by
  constructor
  · intro hsome
    rcases hcc : i.cached with _ | r
    · rcases workerFetch_shape i hcc with ⟨m, _, hw⟩ | ⟨_, hw⟩ | ⟨tok, _, hrest⟩
      · rw [hw] at hsome; simp at hsome
      · rw [hw] at hsome; simp at hsome
      · rcases hrest with ⟨_, hw⟩ | ⟨_, _, hw⟩ | ⟨_, p, _, _, hb⟩
        · rw [hw] at hsome; simp at hsome
        · rw [hw] at hsome; simp at hsome
        · rcases hb with ⟨m, _, hw⟩ | ⟨t, _, hw⟩ | ⟨m, _, hw⟩ | ⟨data, _, hd⟩
          · rw [hw] at hsome; simp at hsome
          · rw [hw] at hsome; simp at hsome
          · rw [hw] at hsome; simp at hsome
          · rcases hd with ⟨_, hw⟩ | ⟨_, hw⟩
            · rw [hw]
              exact ⟨rfl, rfl⟩
            · rw [hw] at hsome; simp at hsome
    · rw [workerFetch_hit i r hcc] at hsome
      simp at hsome
  · intro tok p errTxt h0 h1 h2 h3 h4 h5
    rw [workerFetch_backend_httpError i tok p errTxt h0 h1 h2 h3 h4 h5]
    exact ⟨rfl, rfl, rfl⟩

/-- C2 witness: a quota error from the backend is surfaced as a 500 with the
error body and nothing is written to the cache. -/
theorem cachePut_only_on_success_witness :
    (workerFetch ⟨none, AuthResult.token (some "tok"), "GET", [("page_path", "views")],
        ⟨2026, 10, 11⟩, BackendResult.httpError "quota exceeded", "ts"⟩).response.status = 500 ∧
    (workerFetch ⟨none, AuthResult.token (some "tok"), "GET", [("page_path", "views")],
        ⟨2026, 10, 11⟩, BackendResult.httpError "quota exceeded", "ts"⟩).response.body =
      jsonErrorBodyIndent4 "quota exceeded" ∧
    (workerFetch ⟨none, AuthResult.token (some "tok"), "GET", [("page_path", "views")],
        ⟨2026, 10, 11⟩, BackendResult.httpError "quota exceeded", "ts"⟩).cachePut = none :=
  (cachePut_only_on_success _).2 "tok" "views" "quota exceeded" rfl rfl rfl (by decide)
    (by decide) rfl

/-- C3 counterexample: on a cache miss where token acquisition throws, a
POST request with a page_path parameter is answered with status 500 from the
catch branch, not with the claimed 405. -/
theorem method_check_after_auth_counterexample :
    (workerFetch ⟨none, AuthResult.throws "network failure", "POST", [("page_path", "a")],
        ⟨2026, 10, 11⟩, BackendResult.ok (Except.ok ⟨some []⟩),
        "2026-10-11T00:00:00.000Z"⟩).response.status = 500 ∧
    ¬ (workerFetch ⟨none, AuthResult.throws "network failure", "POST", [("page_path", "a")],
        ⟨2026, 10, 11⟩, BackendResult.ok (Except.ok ⟨some []⟩),
        "2026-10-11T00:00:00.000Z"⟩).response.status = 405 :=
  ⟨by decide, by decide⟩

/-- C3 (corrected): a non GET method never triggers a backend call on any
cache miss, and once token acquisition has produced a token, a non GET
request is answered 405 with the method body and a missing or empty
page_path is answered 405 (with the page_path body when the method is GET);
when token acquisition fails first, the response is the 500 of C9 instead of
a 405. -/
theorem validation_behavior (i : FetchInput) (h0 : i.cached = none) :
    (i.method ≠ "GET" → (workerFetch i).backendCalled = false) ∧
    (∀ tok, i.auth = AuthResult.token (some tok) → i.method ≠ "GET" →
      (workerFetch i).response.status = 405 ∧
      (workerFetch i).response.body = "Method not allowed" ∧
      (workerFetch i).backendCalled = false) ∧
    (∀ tok, i.auth = AuthResult.token (some tok) →
      (findPagePath i.queryParams = none ∨ findPagePath i.queryParams = some "") →
      (workerFetch i).response.status = 405 ∧ (workerFetch i).backendCalled = false) ∧
    (∀ tok, i.auth = AuthResult.token (some tok) → i.method = "GET" →
      (findPagePath i.queryParams = none ∨ findPagePath i.queryParams = some "") →
      (workerFetch i).response.body = "page_path not available") := by
  refine ⟨?_, ?_, ?_, ?_⟩
  · intro hm
    cases hauth : i.auth with
    | throws m => rw [workerFetch_auth_throws i m h0 hauth]
    | token t =>
      cases t with
      | none => rw [workerFetch_auth_none i h0 hauth]
      | some tok => rw [workerFetch_not_get i tok h0 hauth hm]
  · intro tok htok hm
    rw [workerFetch_not_get i tok h0 htok hm]
    exact ⟨rfl, rfl, rfl⟩
  · intro tok htok hfp
    by_cases hm : i.method = "GET"
    · rcases hfp with hfp | hfp
      · rw [workerFetch_no_path i tok h0 htok hm hfp]
        exact ⟨rfl, rfl⟩
      · rw [workerFetch_empty_path i tok h0 htok hm hfp]
        exact ⟨rfl, rfl⟩
    · rw [workerFetch_not_get i tok h0 htok hm]
      exact ⟨rfl, rfl⟩
  · intro tok htok hm hfp
    rcases hfp with hfp | hfp
    · rw [workerFetch_no_path i tok h0 htok hm hfp]
      rfl
    · rw [workerFetch_empty_path i tok h0 htok hm hfp]
      rfl

/-- C3 witness: with a token in hand, a POST request is answered 405 without
a backend call. -/
theorem validation_behavior_witness :
    (workerFetch ⟨none, AuthResult.token (some "tok"), "POST", [("page_path", "a")],
        ⟨2026, 1, 1⟩, BackendResult.ok (Except.ok ⟨none⟩), "now"⟩).response.status = 405 ∧
    (workerFetch ⟨none, AuthResult.token (some "tok"), "POST", [("page_path", "a")],
        ⟨2026, 1, 1⟩, BackendResult.ok (Except.ok ⟨none⟩), "now"⟩).response.body =
      "Method not allowed" ∧
    (workerFetch ⟨none, AuthResult.token (some "tok"), "POST", [("page_path", "a")],
        ⟨2026, 1, 1⟩, BackendResult.ok (Except.ok ⟨none⟩), "now"⟩).backendCalled = false :=
  (validation_behavior _ rfl).2.1 "tok" rfl (by decide)

/-- C9 (confirmed): token acquisition precedes both validation checks: on
every cache miss where it throws or yields no token, the worker answers 500
with the JSON error body, never 405, and never calls the backend, whatever
the method and query parameters are. -/
theorem authFailure_preempts_validation (i : FetchInput) (h0 : i.cached = none)
    (hfail : ∀ t : String, i.auth ≠ AuthResult.token (some t)) :
    (workerFetch i).response.status = 500 ∧
    (workerFetch i).response.status ≠ 405 ∧
    (workerFetch i).backendCalled = false ∧
    (workerFetch i).response.headers = [("Content-Type", "application/json")] ∧
    (∀ m, i.auth = AuthResult.throws m →
      (workerFetch i).response.body = jsonCatchBody m i.nowIso) ∧
    (i.auth = AuthResult.token none →
      (workerFetch i).response.body =
        jsonCatchBody "generating Google auth token failed" i.nowIso) := by
  cases hauth : i.auth with
  | throws m =>
    rw [workerFetch_auth_throws i m h0 hauth]
    refine ⟨rfl, by simp [catchResponse], rfl, rfl, ?_, ?_⟩
    · intro m2 hm2
      injection hm2 with h
      rw [← h]
      rfl
    · intro habs
      exact AuthResult.noConfusion habs
  | token t =>
    cases t with
    | none =>
      rw [workerFetch_auth_none i h0 hauth]
      refine ⟨rfl, by simp [catchResponse], rfl, rfl, ?_, fun _ => rfl⟩
      intro m hm
      exact AuthResult.noConfusion hm
    | some tok => exact absurd hauth (hfail tok)

/-- C9 witness: a POST request with a valid page_path still gets the 500 of
the auth failure, not a 405. -/
theorem authFailure_preempts_validation_witness :
    (workerFetch ⟨none, AuthResult.throws "boom", "POST", [("page_path", "a")], ⟨2026, 1, 1⟩,
        BackendResult.ok (Except.ok ⟨none⟩), "now"⟩).response.status = 500 ∧
    (workerFetch ⟨none, AuthResult.throws "boom", "POST", [("page_path", "a")], ⟨2026, 1, 1⟩,
        BackendResult.ok (Except.ok ⟨none⟩), "now"⟩).response.status ≠ 405 ∧
    (workerFetch ⟨none, AuthResult.throws "boom", "POST", [("page_path", "a")], ⟨2026, 1, 1⟩,
        BackendResult.ok (Except.ok ⟨none⟩), "now"⟩).backendCalled = false ∧
    (workerFetch ⟨none, AuthResult.throws "boom", "POST", [("page_path", "a")], ⟨2026, 1, 1⟩,
        BackendResult.ok (Except.ok ⟨none⟩), "now"⟩).response.headers =
      [("Content-Type", "application/json")] ∧
    (∀ m, (FetchInput.mk none (AuthResult.throws "boom") "POST" [("page_path", "a")]
        ⟨2026, 1, 1⟩ (BackendResult.ok (Except.ok ⟨none⟩)) "now").auth = AuthResult.throws m →
      (workerFetch ⟨none, AuthResult.throws "boom", "POST", [("page_path", "a")], ⟨2026, 1, 1⟩,
          BackendResult.ok (Except.ok ⟨none⟩), "now"⟩).response.body = jsonCatchBody m "now") ∧
    ((FetchInput.mk none (AuthResult.throws "boom") "POST" [("page_path", "a")]
        ⟨2026, 1, 1⟩ (BackendResult.ok (Except.ok ⟨none⟩)) "now").auth = AuthResult.token none →
      (workerFetch ⟨none, AuthResult.throws "boom", "POST", [("page_path", "a")], ⟨2026, 1, 1⟩,
          BackendResult.ok (Except.ok ⟨none⟩), "now"⟩).response.body =
        jsonCatchBody "generating Google auth token failed" "now") :=
  authFailure_preempts_validation _ rfl (fun t h => by simp at h)

/-- C10 (confirmed): every status 200 response produced on a cache miss
carries as body a badge rendered with the constant label readers, whatever
the method, the query parameters and the backend report are, and any
response handed to cache.put has that same body. -/
theorem success_response_label_readers (i : FetchInput) (h0 : i.cached = none)
    (h200 : (workerFetch i).response.status = 200) :
    ∃ v m, (workerFetch i).response.body = generateBadge "readers" v m ∧
      ∀ r, (workerFetch i).cachePut = some r → r.body = generateBadge "readers" v m := by
  rcases workerFetch_shape i h0 with ⟨m, _, hw⟩ | ⟨_, hw⟩ | ⟨tok, _, hrest⟩
  · rw [hw] at h200; simp [catchResponse] at h200
  · rw [hw] at h200; simp [catchResponse] at h200
  · rcases hrest with ⟨_, hw⟩ | ⟨_, _, hw⟩ | ⟨_, p, _, _, hb⟩
    · rw [hw] at h200; simp [textResponse405] at h200
    · rw [hw] at h200; simp [textResponse405] at h200
    · rcases hb with ⟨m, _, hw⟩ | ⟨t, _, hw⟩ | ⟨m, _, hw⟩ | ⟨data, _, hd⟩
      · rw [hw] at h200; simp [catchResponse] at h200
      · rw [hw] at h200; simp [upstreamErrorResponse] at h200
      · rw [hw] at h200; simp [catchResponse] at h200
      · rcases hd with ⟨_, hw⟩ | ⟨_, hw⟩
        · have hbody : (successResponse data).body = generateBadge "readers"
              (formatNumberJS (reportCounts data))
              ((reportDimensionValues data).map (fun v => v.getD "")) := rfl
          have hresp : (workerFetch i).response = successResponse data := by rw [hw]
          have hput : (workerFetch i).cachePut = some (successResponse data) := by rw [hw]
          refine ⟨?_, ?_, ?_, ?_⟩
          · exact formatNumberJS (reportCounts data)
          · exact (reportDimensionValues data).map (fun v => v.getD "")
          · rw [hresp]
            exact hbody
          · intro r hr
            rw [hput] at hr
            have h := Option.some.inj hr
            rw [← h]
            exact hbody
        · rw [hw] at h200; simp [catchResponse] at h200

set_option maxHeartbeats 1000000 in
/-- C10 witness: a successful render over an empty report has the readers
badge as body. -/
theorem success_response_label_readers_witness :
    ∃ v m, (workerFetch ⟨none, AuthResult.token (some "tok"), "GET", [("page_path", "a")],
        ⟨2026, 1, 1⟩, BackendResult.ok (Except.ok ⟨some []⟩), "now"⟩).response.body =
      generateBadge "readers" v m ∧
      ∀ r, (workerFetch ⟨none, AuthResult.token (some "tok"), "GET", [("page_path", "a")],
          ⟨2026, 1, 1⟩, BackendResult.ok (Except.ok ⟨some []⟩), "now"⟩).cachePut = some r →
        r.body = generateBadge "readers" v m :=
  success_response_label_readers _ rfl (by decide)
